/-
Verification of the c2s2-xls excerpt: the DSLX bytecode interpreter
(stack-based virtual machine), the fuzzer argument generator
(sample_generator.cc), and the NOC simulation network graph
(network_graph.h).

The bytecode interpreter implementation itself (bytecode_interpreter.cc,
interp_value) is not part of the excerpted sources; only its unit tests
are.  Its embedding below is therefore modelled from the specification
(spec sections 3, 4.2, 4.3, 6, 7), as noted on each definition.
-/
import Mathlib

namespace XlsVm

/-- Modelled from the spec: the built-in function catalogue of section 4.3
(the interpreter sources are absent from the excerpt).  The minimum
required set is the equality assertion; further built-ins are optional
and not needed by any test in the excerpt. -/
inductive Builtin
  | assertEq
deriving DecidableEq

/-- Modelled from the spec: the runtime value model of section 3
(interp_value is absent from the excerpt).  A Bits value stores its
width, its sign tag and an arbitrary-precision two's-complement payload,
kept here as the natural number formed by the raw bits (so a canonical
payload satisfies val < 2 ^ width).  Function values carry a built-in
tag; user function references are outside the excerpted claims. -/
inductive Value
  | unit
  | bits (signed : Bool) (width : Nat) (val : Nat)
  | tuple (elts : List Value)
  | array (elts : List Value)
  | fn (b : Builtin)

mutual

/-- Modelled from the spec: the value model's structural equality
(section 4.1): deep, width- and sign-aware for Bits. -/
def valueEq : Value → Value → Bool
  | .unit, .unit => true
  | .bits s w v, .bits s2 w2 v2 => s == s2 && w == w2 && v == v2
  | .tuple es, .tuple fs => valueEqList es fs
  | .array es, .array fs => valueEqList es fs
  | .fn b, .fn b2 => b == b2
  | _, _ => false

/-- Element-wise structural equality of value sequences. -/
def valueEqList : List Value → List Value → Bool
  | [], [] => true
  | e :: es, f :: fs => valueEq e f && valueEqList es fs
  | _, _ => false

end

mutual

/-- Structural equality agrees with propositional equality of values. -/
theorem valueEq_iff : (a b : Value) → (valueEq a b = true ↔ a = b)
  | .unit, b => by cases b <;> simp [valueEq]
  | .bits s w v, b => by cases b <;> simp [valueEq, and_assoc]
  | .tuple es, b => by
    cases b <;> simp [valueEq]
    exact valueEqList_iff es _
  | .array es, b => by
    cases b <;> simp [valueEq]
    exact valueEqList_iff es _
  | .fn f, b => by cases b <;> simp [valueEq]

/-- Element-wise structural equality agrees with list equality. -/
theorem valueEqList_iff : (as bs : List Value) → (valueEqList as bs = true ↔ as = bs)
  | [], bs => by cases bs <;> simp [valueEqList]
  | a :: as, bs => by
    cases bs with
    | nil => simp [valueEqList]
    | cons b bs =>
      simp [valueEqList, Bool.and_eq_true, valueEq_iff a b, valueEqList_iff as bs]

end

instance : DecidableEq Value := fun a b => decidable_of_iff _ (valueEq_iff a b)

/-- Modelled from the spec: the internal-error conditions enumerated in
sections 4.2, 6 and 7 (contract violations by the upstream pipeline). -/
inductive InternalError
  | stackUnderflow
  | slotOutOfRange
  | typeMismatch
  | widthMismatch
  | divisionByZero
  | divOverflow
  | jumpCondWidth
  | jumpTargetOutOfRange
  | malformedFinalStack
deriving DecidableEq

/-- Modelled from the spec: the failure classification of sections 6
and 7.  An assertion failure carries both compared values (from which
both renderings derive); an index-out-of-bounds failure carries the
offending index and the container bound; internal errors carry their
contract-violation kind. -/
inductive Failure
  | assertionFailure (lhs rhs : Value)
  | indexOutOfBounds (index bound : Nat)
  | internalError (e : InternalError)
deriving DecidableEq

/-- Modelled from the spec: user-visible failures (failed assertion,
dynamic index out of bounds) per section 7. -/
def Failure.isUserVisible : Failure → Bool
  | .assertionFailure _ _ => true
  | .indexOutOfBounds _ _ => true
  | .internalError _ => false

/-- Modelled from the spec: internal/contract failures per section 7. -/
def Failure.isInternal : Failure → Bool
  | .internalError _ => true
  | .assertionFailure _ _ => false
  | .indexOutOfBounds _ _ => false

/-- Modelled from the spec: the binary arithmetic/bitwise opcode family
of section 4.2. -/
inductive BinOp
  | add
  | sub
  | mul
  | div
  | and
  | or
  | xor
  | concat
  | shll
  | shrl
deriving DecidableEq

/-- Modelled from the spec: the unary opcode family of section 4.2. -/
inductive UnOp
  | bitNot
  | negate
deriving DecidableEq

/-- Modelled from the spec: one instruction is an op code plus its typed
operand (section 3); jump operands are signed relative displacements. -/
inductive Instruction
  | literal (v : Value)
  | store (slot : Nat)
  | load (slot : Nat)
  | binop (op : BinOp)
  | unop (op : UnOp)
  | call (f : Builtin)
  | jumpRelIf (offset : Int)
  | jumpRel (offset : Int)
  | jumpDest
deriving DecidableEq

/-- Two's-complement reading of a payload of the given width. -/
def toSigned (w v : Nat) : Int :=
  if 2 * v < 2 ^ w then (v : Int) else (v : Int) - (2 ^ w : Nat)

/-- Modelled from the spec: semantics of the binary opcode family
(section 4.2).  Both operands must be Bits; Add/Sub/Mul/Div/And/Or/Xor
require equal widths; results of the width-preserving operations take
the left operand's sign tag; Concat concatenates with the left operand
in the high bits and is always unsigned; shifts use the unsigned
reading of the right operand as the amount. -/
def evalBinop : BinOp → Value → Value → Except Failure Value
  | op, .bits ls lw lv, .bits _rs rw rv =>
    match op with
    | .add =>
      if lw = rw then .ok (.bits ls lw ((lv + rv) % 2 ^ lw))
      else .error (.internalError .widthMismatch)
    | .sub =>
      if lw = rw then .ok (.bits ls lw ((lv + (2 ^ lw - rv)) % 2 ^ lw))
      else .error (.internalError .widthMismatch)
    | .mul =>
      if lw = rw then .ok (.bits ls lw ((lv * rv) % 2 ^ lw))
      else .error (.internalError .widthMismatch)
    | .div =>
      if lw = rw then
        if rv % 2 ^ lw = 0 then .error (.internalError .divisionByZero)
        else if ls then
          let q : Int := (toSigned lw lv).tdiv (toSigned lw rv)
          if -((2 ^ lw : Nat) : Int) / 2 ≤ q ∧ 2 * q < ((2 ^ lw : Nat) : Int) then
            .ok (.bits ls lw ((q % ((2 ^ lw : Nat) : Int)).toNat))
          else .error (.internalError .divOverflow)
        else .ok (.bits ls lw (lv / rv))
      else .error (.internalError .widthMismatch)
    | .and =>
      if lw = rw then .ok (.bits ls lw (Nat.land lv rv))
      else .error (.internalError .widthMismatch)
    | .or =>
      if lw = rw then .ok (.bits ls lw (Nat.lor lv rv))
      else .error (.internalError .widthMismatch)
    | .xor =>
      if lw = rw then .ok (.bits ls lw (Nat.xor lv rv))
      else .error (.internalError .widthMismatch)
    | .concat => .ok (.bits false (lw + rw) (lv * 2 ^ rw + rv))
    | .shll => .ok (.bits ls lw ((lv * 2 ^ rv) % 2 ^ lw))
    | .shrl => .ok (.bits ls lw (lv / 2 ^ rv))
  | _, _, _ => .error (.internalError .typeMismatch)

/-- Modelled from the spec: semantics of the unary opcode family
(section 4.2): bitwise complement and two's-complement negation, same
width and sign as the operand. -/
def evalUnop : UnOp → Value → Except Failure Value
  | .bitNot, .bits s w v => .ok (.bits s w (2 ^ w - 1 - v % 2 ^ w))
  | .negate, .bits s w v => .ok (.bits s w ((2 ^ w - v % 2 ^ w) % 2 ^ w))
  | _, _ => .error (.internalError .typeMismatch)

/-- Modelled from the spec: the equality assertion built-in of
section 4.3: compare with the value model's structural equality, push
Unit on match, fail with an AssertionFailure carrying both compared
values on mismatch. -/
def applyAssertEq (l r : Value) : Except Failure Value :=
  if valueEq l r then .ok .unit else .error (.assertionFailure l r)

/-- Modelled from the spec: dispatch of a built-in call (section 4.3). -/
def applyBuiltin : Builtin → Value → Value → Except Failure Value
  | .assertEq, l, r => applyAssertEq l r

/-- Outcome of executing one instruction: a classified failure, or the
next program counter, operand stack and environment. -/
inductive StepResult
  | fail (f : Failure)
  | next (pc : Nat) (stack : List Value) (env : List Value)
deriving DecidableEq

/-- Modelled from the spec: relative-jump resolution (sections 4.2
and 7): the target is the instruction's own address plus the signed
displacement; a negative target is an out-of-range jump target, an
internal error. -/
def applyJump (pc : Nat) (offset : Int) (stack env : List Value) : StepResult :=
  let t : Int := (pc : Int) + offset
  if t < 0 then .fail (.internalError .jumpTargetOutOfRange)
  else .next t.toNat stack env

/-- Modelled from the spec: per-opcode semantics of one dispatch step of
the execution engine (section 4.2).  Binary operations pop the
right-hand operand first; a conditional jump pops a width-1 Bits
condition; stores and loads are checked against the environment length
(a slot at or beyond it is an internal error). -/
def step (ins : Instruction) (pc : Nat) (stack env : List Value) : StepResult :=
  match ins with
  | .literal v => .next (pc + 1) (v :: stack) env
  | .store slot =>
    match stack with
    | v :: rest =>
      if slot < env.length then .next (pc + 1) rest (env.set slot v)
      else .fail (.internalError .slotOutOfRange)
    | [] => .fail (.internalError .stackUnderflow)
  | .load slot =>
    if slot < env.length then .next (pc + 1) (env.getD slot .unit :: stack) env
    else .fail (.internalError .slotOutOfRange)
  | .binop op =>
    match stack with
    | r :: l :: rest =>
      match evalBinop op l r with
      | .ok v => .next (pc + 1) (v :: rest) env
      | .error f => .fail f
    | _ => .fail (.internalError .stackUnderflow)
  | .unop op =>
    match stack with
    | v :: rest =>
      match evalUnop op v with
      | .ok v2 => .next (pc + 1) (v2 :: rest) env
      | .error f => .fail f
    | [] => .fail (.internalError .stackUnderflow)
  | .call b =>
    match stack with
    | r :: l :: rest =>
      match applyBuiltin b l r with
      | .ok v => .next (pc + 1) (v :: rest) env
      | .error f => .fail f
    | _ => .fail (.internalError .stackUnderflow)
  | .jumpRelIf offset =>
    match stack with
    | .bits _ w v :: rest =>
      if w = 1 then
        if v = 0 then .next (pc + 1) rest env
        else applyJump pc offset rest env
      else .fail (.internalError .jumpCondWidth)
    | _ :: _ => .fail (.internalError .typeMismatch)
    | [] => .fail (.internalError .stackUnderflow)
  | .jumpRel offset => applyJump pc offset stack env
  | .jumpDest => .next (pc + 1) stack env

/-- Modelled from the spec: the check at normal termination
(section 4.2): the single remaining operand-stack value is the result;
anything else left on the stack is an internal error. -/
def finishRun : List Value → Except Failure Value
  | [v] => .ok v
  | _ => .error (.internalError .malformedFinalStack)

/-- Modelled from the spec: the fetch-dispatch-execute loop of
section 4.2, with a fuel bound (none = fuel exhausted; the engine
itself guarantees no termination).  The run ends when the program
counter passes the end of the sequence. -/
def run : Nat → List Instruction → Nat → List Value → List Value →
    Option (Except Failure Value)
  | 0, _, _, _, _ => none
  | fuel + 1, instrs, pc, stack, env =>
    if h : pc < instrs.length then
      match step instrs[pc] pc stack env with
      | .fail f => some (.error f)
      | .next pc2 stack2 env2 => run fuel instrs pc2 stack2 env2
    else some (finishRun stack)

/-- Modelled from the spec: the public contract
Interpret(instructions, environment) of section 4.2, with the program
counter starting at 0 and an empty operand stack. -/
def interpret (fuel : Nat) (instrs : List Instruction) (env : List Value) :
    Option (Except Failure Value) :=
  run fuel instrs 0 [] env

mutual

/-- Modelled from the spec: the human-readable rendering of values used
in failure messages (section 4.1). -/
def render : Value → String
  | .unit => "()"
  | .bits s w v => (if s then "s" else "u") ++ Nat.repr w ++ ":" ++ Nat.repr v
  | .tuple es => "(" ++ renderList es ++ ")"
  | .array es => "[" ++ renderList es ++ "]"
  | .fn _ => "builtin:assert_eq"

/-- Comma-separated rendering of a value sequence. -/
def renderList : List Value → String
  | [] => ""
  | [e] => render e
  | e :: es => render e ++ ", " ++ renderList es

end

/-- Modelled from the spec: the reported text of each failure; an
assertion failure's message carries both values' rendered text in the
form of section 4.3. -/
def Failure.message : Failure → String
  | .assertionFailure l r => "were not equal: lhs=" ++ render l ++ " rhs=" ++ render r
  | .indexOutOfBounds i b =>
    "index out of bounds: index " ++ Nat.repr i ++ " bound " ++ Nat.repr b
  | .internalError _ => "internal interpreter contract violation"

/-- The message of an assertion failure contains the renderings of both
compared values. -/
theorem assertionFailure_message_contains (l r : Value) :
    (render l).data <:+: (Failure.assertionFailure l r).message.data ∧
      (render r).data <:+: (Failure.assertionFailure l r).message.data := by
  constructor
  · exact ⟨("were not equal: lhs=" : String).data,
      ((" rhs=" : String) ++ render r).data, by
        simp [Failure.message, String.data_append]⟩
  · exact ⟨(("were not equal: lhs=" : String) ++ render l ++ " rhs=").data, [], by
      simp [Failure.message, String.data_append]⟩

/-- The message of an assertion failure mentions "were not equal". -/
theorem assertionFailure_message_mentions (l r : Value) :
    ("were not equal" : String).data <:+:
      (Failure.assertionFailure l r).message.data := by
  refine ⟨[], ((": lhs=" : String) ++ render l ++ " rhs=" ++ render r).data, ?_⟩
  have h : (Failure.assertionFailure l r).message =
      ("were not equal" : String) ++ (": lhs=" ++ render l ++ " rhs=" ++ render r) := by
    simp [Failure.message]
    rfl
  simp [h, String.data_append]

/-- Running with more fuel preserves any settled outcome of the engine. -/
theorem run_mono : ∀ (f1 f2 : Nat) (instrs : List Instruction) (pc : Nat)
    (stack env : List Value) (r : Except Failure Value), f1 ≤ f2 →
    run f1 instrs pc stack env = some r → run f2 instrs pc stack env = some r := by
  intro f1
  induction f1 with
  | zero => intro f2 instrs pc stack env r _ h; simp [run] at h
  | succ n ih =>
    intro f2 instrs pc stack env r hle h
    obtain ⟨m, rfl⟩ : ∃ m, f2 = m + 1 := ⟨f2 - 1, by omega⟩
    rw [run] at h ⊢
    by_cases hpc : pc < instrs.length
    · rw [dif_pos hpc] at h ⊢
      cases hs : step instrs[pc] pc stack env with
      | fail f => rw [hs] at h; exact h
      | next pc2 stack2 env2 =>
        rw [hs] at h
        exact ih m instrs pc2 stack2 env2 r (by omega) h
    · rw [dif_neg hpc] at h ⊢; exact h

/-- C1: every failing run of Interpret reports its failure in exactly one
of two distinct categories: a user-visible failure (an AssertionFailure
carrying both compared renderings, or an IndexOutOfBounds) is reported
with a different kind than an internal-error signal. -/
theorem interpret_failure_classification (fuel : Nat) (instrs : List Instruction)
    (env : List Value) (f : Failure)
    (h : interpret fuel instrs env = some (.error f)) :
    ((f.isUserVisible = true ∧ f.isInternal = false) ∨
      (f.isUserVisible = false ∧ f.isInternal = true)) ∧
    (∀ l r, f = .assertionFailure l r →
      (render l).data <:+: f.message.data ∧ (render r).data <:+: f.message.data) := by
  refine ⟨?_, ?_⟩
  · cases f <;> simp [Failure.isUserVisible, Failure.isInternal]
  · rintro l r rfl
    exact assertionFailure_message_contains l r

/-- Witness for C1: a concrete failing run (an Add on an empty operand
stack), classified as an internal error and not user-visible. -/
theorem interpret_failure_classification_witness :
    ((Failure.internalError .stackUnderflow).isUserVisible = true ∧
        (Failure.internalError .stackUnderflow).isInternal = false) ∨
      ((Failure.internalError .stackUnderflow).isUserVisible = false ∧
        (Failure.internalError .stackUnderflow).isInternal = true) :=
  (interpret_failure_classification 1 [Instruction.binop .add] []
    (Failure.internalError .stackUnderflow) rfl).1

/-- C2: interpreting Literal(u32:1); Store(0); Load(0); Literal(u32:2);
Add over an environment of size 1 initialized to Unit terminates
successfully with the single Bits value u32:3. -/
theorem interpret_positive_smoke (fuel : Nat) (h : 6 ≤ fuel) :
    interpret fuel
      [Instruction.literal (.bits false 32 1), .store 0, .load 0,
        .literal (.bits false 32 2), .binop .add] [Value.unit] =
      some (.ok (.bits false 32 3)) :=
  run_mono 6 fuel _ 0 [] _ _ h (by rfl)

/-- Witness for C2: the smoke-test program evaluated with fuel 6. -/
theorem interpret_positive_smoke_witness :
    interpret 6
      [Instruction.literal (.bits false 32 1), .store 0, .load 0,
        .literal (.bits false 32 2), .binop .add] [Value.unit] =
      some (.ok (.bits false 32 3)) :=
  interpret_positive_smoke 6 (by decide)

/-- C3: the ternary program [Literal(u1:1), JumpRelativeIf(+3),
Literal(u32:64), JumpRelative(+3), JumpDestination, Literal(u32:42),
JumpDestination] evaluates to u32:42, and the same program with the
first literal flipped to u1:0 evaluates to u32:64. -/
theorem interpret_ternary_jumps (fuel : Nat) (h : 6 ≤ fuel) :
    interpret fuel
      [Instruction.literal (.bits false 1 1), .jumpRelIf 3,
        .literal (.bits false 32 64), .jumpRel 3, .jumpDest,
        .literal (.bits false 32 42), .jumpDest] [] =
      some (.ok (.bits false 32 42)) ∧
    interpret fuel
      [Instruction.literal (.bits false 1 0), .jumpRelIf 3,
        .literal (.bits false 32 64), .jumpRel 3, .jumpDest,
        .literal (.bits false 32 42), .jumpDest] [] =
      some (.ok (.bits false 32 64)) :=
  ⟨run_mono 6 fuel _ 0 [] _ _ h (by rfl), run_mono 6 fuel _ 0 [] _ _ h (by rfl)⟩

/-- Witness for C3: both ternary programs evaluated with fuel 6. -/
theorem interpret_ternary_jumps_witness :
    interpret 6
      [Instruction.literal (.bits false 1 1), .jumpRelIf 3,
        .literal (.bits false 32 64), .jumpRel 3, .jumpDest,
        .literal (.bits false 32 42), .jumpDest] [] =
      some (.ok (.bits false 32 42)) ∧
    interpret 6
      [Instruction.literal (.bits false 1 0), .jumpRelIf 3,
        .literal (.bits false 32 64), .jumpRel 3, .jumpDest,
        .literal (.bits false 32 42), .jumpDest] [] =
      some (.ok (.bits false 32 64)) :=
  interpret_ternary_jumps 6 (by decide)

/-- C4: assert_eq(x, x) succeeds and pushes Unit for every value x, and
assert_eq(x, y) for structurally unequal x, y fails with an
AssertionFailure whose message contains the renderings of both. -/
theorem assertEq_spec (x y : Value) :
    applyAssertEq x x = .ok .unit ∧
    (x ≠ y →
      applyAssertEq x y = .error (.assertionFailure x y) ∧
      (render x).data <:+: (Failure.assertionFailure x y).message.data ∧
      (render y).data <:+: (Failure.assertionFailure x y).message.data) := by
  constructor
  · simp [applyAssertEq, valueEq_iff]
  · intro hne
    refine ⟨?_, assertionFailure_message_contains x y⟩
    rw [applyAssertEq, if_neg]
    simpa [valueEq_iff] using hne

/-- Witness for C4: assert_eq on equal and on unequal u32 values. -/
theorem assertEq_spec_witness :
    applyAssertEq (Value.bits false 32 3) (Value.bits false 32 3) = .ok .unit ∧
    applyAssertEq (Value.bits false 32 3) (Value.bits false 32 2) =
      .error (.assertionFailure (.bits false 32 3) (.bits false 32 2)) :=
  ⟨(assertEq_spec (Value.bits false 32 3) (Value.bits false 32 3)).1,
    ((assertEq_spec (Value.bits false 32 3) (Value.bits false 32 2)).2
      (by decide)).1⟩

/-- C5: interpreting Literal(u32:3); Store(0); Load(0); Literal(u32:2);
Call(assert_eq); Store(1); Load(0) over an environment of size 2 fails
with an AssertionFailure whose message mentions "were not equal". -/
theorem interpret_assertEq_fail (fuel : Nat) (h : 5 ≤ fuel) :
    interpret fuel
      [Instruction.literal (.bits false 32 3), .store 0, .load 0,
        .literal (.bits false 32 2), .call .assertEq, .store 1, .load 0]
      [Value.unit, Value.unit] =
      some (.error (.assertionFailure (.bits false 32 3) (.bits false 32 2))) ∧
    ("were not equal" : String).data <:+:
      (Failure.assertionFailure (.bits false 32 3) (.bits false 32 2)).message.data :=
  ⟨run_mono 5 fuel _ 0 [] _ _ h (by rfl),
    assertionFailure_message_mentions _ _⟩

/-- Witness for C5: the failing assert_eq program evaluated with fuel 5. -/
theorem interpret_assertEq_fail_witness :
    interpret 5
      [Instruction.literal (.bits false 32 3), .store 0, .load 0,
        .literal (.bits false 32 2), .call .assertEq, .store 1, .load 0]
      [Value.unit, Value.unit] =
      some (.error (.assertionFailure (.bits false 32 3) (.bits false 32 2))) :=
  (interpret_assertEq_fail 5 (by decide)).1

/-- C6: Concat(a, b) on Bits operands of widths wa and wb (no width
equality required) yields an unsigned result of width wa + wb whose
high-order wa bits are a and whose low-order wb bits are b. -/
theorem concat_spec (sa sb : Bool) (wa wb va vb : Nat)
    (ha : va < 2 ^ wa) (hb : vb < 2 ^ wb) :
    evalBinop .concat (.bits sa wa va) (.bits sb wb vb) =
      .ok (.bits false (wa + wb) (va * 2 ^ wb + vb)) ∧
    va * 2 ^ wb + vb < 2 ^ (wa + wb) ∧
    (va * 2 ^ wb + vb) / 2 ^ wb = va ∧
    (va * 2 ^ wb + vb) % 2 ^ wb = vb := by
  refine ⟨rfl, ?_, ?_, ?_⟩
  · calc va * 2 ^ wb + vb < va * 2 ^ wb + 2 ^ wb := by omega
      _ = (va + 1) * 2 ^ wb := by ring
      _ ≤ 2 ^ wa * 2 ^ wb := Nat.mul_le_mul_right _ (by omega)
      _ = 2 ^ (wa + wb) := (pow_add 2 wa wb).symm
  · rw [Nat.mul_comm, Nat.mul_add_div (Nat.two_pow_pos wb), Nat.div_eq_of_lt hb]
    omega
  · rw [Nat.add_comm, Nat.add_mul_mod_self_right, Nat.mod_eq_of_lt hb]

/-- Witness for C6: concatenating u4:10 and u2:3 gives u6:43. -/
theorem concat_spec_witness :
    evalBinop .concat (.bits false 4 10) (.bits false 2 3) =
      .ok (.bits false (4 + 2) (10 * 2 ^ 2 + 3)) :=
  (concat_spec false false 4 2 10 3 (by decide) (by decide)).1

/-- C7: for equal-width Bits operands, Add computes the sum modulo 2^w
with result width w, and Sub(Add(a, b), b) round-trips to a. -/
theorem add_sub_roundtrip (s1 s2 : Bool) (w va vb : Nat)
    (ha : va < 2 ^ w) (hb : vb < 2 ^ w) :
    evalBinop .add (.bits s1 w va) (.bits s2 w vb) =
      .ok (.bits s1 w ((va + vb) % 2 ^ w)) ∧
    evalBinop .sub (.bits s1 w ((va + vb) % 2 ^ w)) (.bits s2 w vb) =
      .ok (.bits s1 w va) := by
  constructor
  · simp [evalBinop]
  · have h2 : ((va + vb) % 2 ^ w + (2 ^ w - vb)) % 2 ^ w = va := by
      rw [Nat.mod_add_mod]
      have h3 : va + vb + (2 ^ w - vb) = va + 2 ^ w := by omega
      rw [h3, Nat.add_mod_right, Nat.mod_eq_of_lt ha]
    simp [evalBinop, h2]

/-- Witness for C7: Add then Sub round-trips u32:1 with u32:2. -/
theorem add_sub_roundtrip_witness :
    evalBinop .sub (.bits false 32 ((1 + 2) % 2 ^ 32)) (.bits false 32 2) =
      .ok (.bits false 32 1) :=
  (add_sub_roundtrip false false 32 1 2 (by decide) (by decide)).2

/-- C8: shifting a Bits value by an amount whose unsigned reading is at
least its width yields an all-zero result of that width, for both
logical shifts, rather than an error. -/
theorem shift_amount_ge_width_zero (sa : Bool) (wa va : Nat)
    (sk : Bool) (wk vk : Nat) (ha : va < 2 ^ wa) (hk : wa ≤ vk) :
    evalBinop .shll (.bits sa wa va) (.bits sk wk vk) = .ok (.bits sa wa 0) ∧
    evalBinop .shrl (.bits sa wa va) (.bits sk wk vk) = .ok (.bits sa wa 0) := by
  constructor
  · have h0 : (va * 2 ^ vk) % 2 ^ wa = 0 := by
      have hv : vk = (vk - wa) + wa := by omega
      calc (va * 2 ^ vk) % 2 ^ wa
          = (va * (2 ^ (vk - wa) * 2 ^ wa)) % 2 ^ wa := by rw [← pow_add, ← hv]
        _ = (va * 2 ^ (vk - wa) * 2 ^ wa) % 2 ^ wa := by ring_nf
        _ = 0 := Nat.mul_mod_left _ _
    simp [evalBinop, h0]
  · have h0 : va / 2 ^ vk = 0 :=
      Nat.div_eq_of_lt (lt_of_lt_of_le ha (Nat.pow_le_pow_right (by omega) hk))
    simp [evalBinop, h0]

/-- Witness for C8: shifting u8:0xa5 by u32:9 in either direction gives
u8:0. -/
theorem shift_amount_ge_width_zero_witness :
    evalBinop .shll (.bits false 8 165) (.bits false 32 9) =
        .ok (.bits false 8 0) ∧
      evalBinop .shrl (.bits false 8 165) (.bits false 32 9) =
        .ok (.bits false 8 0) :=
  shift_amount_ge_width_zero false 8 165 false 32 9 (by decide) (by decide)

end XlsVm

namespace Noc

/-- Identifier of a network.  The id types live in common.h, which is
absent from the excerpt; they are modelled from their constructor use in
network_graph.h. -/
structure NetworkId where
  id : Nat
deriving DecidableEq

/-- Identifier of a network component: owning network plus index. -/
structure NetworkComponentId where
  network : Nat
  id : Nat
deriving DecidableEq

/-- Identifier of a connection: owning network plus index. -/
structure ConnectionId where
  network : Nat
  id : Nat
deriving DecidableEq

/-- Identifier of a port: owning network, component and index. -/
structure PortId where
  network : Nat
  component : Nat
  id : Nat
deriving DecidableEq

/-- Direction of a port: input or output (network_graph.h). -/
inductive PortDirection
  | input
  | output
deriving DecidableEq

/-- A port of a network component (network_graph.h, class Port). -/
structure Port where
  id : PortId
  dir : PortDirection
  connection : ConnectionId
deriving DecidableEq

/-- A connection between two ports (network_graph.h, class Connection). -/
structure Connection where
  id : ConnectionId
  src : PortId
  sink : PortId
deriving DecidableEq

/-- A network component (network_graph.h, class NetworkComponent).
NetworkComponentKind is defined in the absent common.h; its value is
irrelevant here and is modelled as a natural number. -/
structure NetworkComponent where
  id : NetworkComponentId
  kind : Nat
  ports : List Port
deriving DecidableEq

/-- A network, storing the components and connections it manages
(network_graph.h, class Network; the manager back-pointer carries no
data relevant to these operations). -/
structure Network where
  id : NetworkId
  components : List NetworkComponent
  connections : List Connection
deriving DecidableEq

/-- Get the id of the i-th Connection (network_graph.h). -/
def Network.GetConnectionIdByIndex (n : Network) (i : Nat) : ConnectionId :=
  ⟨n.id.id, i⟩

/-- Count of connections managed by this object (network_graph.h). -/
def Network.GetConnectionCount (n : Network) : Nat :=
  n.connections.length

/-- Count of network components managed by this object
(network_graph.h). -/
def Network.GetNetworkComponentCount (n : Network) : Nat :=
  n.components.length

/-- GetConnectionIds exactly as written in network_graph.h: the result
vector is sized by components_.size() — not connections_.size() — and
filled with ConnectionId(id_.id(), i) for each index i below
components_.size(). -/
def Network.GetConnectionIds (n : Network) : List ConnectionId :=
  (List.range n.components.length).map fun i => ⟨n.id.id, i⟩

/-- A network with one component and no connections, exhibiting the
GetConnectionIds sizing slip. -/
def mismatchNetwork : Network :=
  ⟨⟨0⟩, [⟨⟨0, 0⟩, 0, []⟩], []⟩

/-- C9: the claim that GetConnectionIds returns one ConnectionId per
managed connection fails on the code: on a network with one component
and no connections it returns a vector of length 1 (the component
count) while GetConnectionCount is 0, because the source sizes the
vector by components_.size(). -/
theorem getConnectionIds_length_bug :
    mismatchNetwork.GetConnectionIds.length = 1 ∧
    mismatchNetwork.GetConnectionCount = 0 ∧
    mismatchNetwork.GetConnectionIds.length ≠ mismatchNetwork.GetConnectionCount := by
  refine ⟨rfl, rfl, by decide⟩

end Noc

namespace Fuzzer

open XlsVm

/-- The concrete argument types handled by GenerateArgument in
sample_generator.cc: bits, tuple, array and channel variants, with the
sizes already resolved to integers as GetAsInt64 does. -/
inductive ConcreteType
  | bits (signed : Bool) (size : Nat)
  | tuple (members : List ConcreteType)
  | array (element : ConcreteType) (size : Nat)
  | channel (payload : ConcreteType)

/-- The random-number-generator state threaded through
sample_generator.cc, modelled as read-once streams: unit-interval draws
consumed by RandomDouble and integer entropy consumed by the bounded
integer draws and bit patterns. -/
structure RngState where
  doubles : Nat → ℚ
  ints : Nat → Nat
  dIdx : Nat
  iIdx : Nat

/-- RngState::RandomDouble: the next unit-interval draw. -/
def RngState.randomDouble (r : RngState) : ℚ × RngState :=
  (r.doubles r.dIdx, { r with dIdx := r.dIdx + 1 })

/-- RngState::RandRange: a draw below the limit, modelled as the next
integer draw modulo the limit (every call site passes a positive
limit). -/
def RngState.randRange (r : RngState) (limit : Nat) : Nat × RngState :=
  (r.ints r.iIdx % limit, { r with iIdx := r.iIdx + 1 })

/-- RngState::RandRangeBiasedTowardsZero as in sample_generator.cc:
XLS_CHECK_GT(limit, 0) aborts the process on a zero limit (modelled as
none); a limit of one returns zero without consuming entropy; otherwise
a triangular draw below the limit, modelled as the next integer draw
modulo the limit. -/
def RngState.randRangeBiasedTowardsZero (r : RngState) (limit : Nat) :
    Option (Nat × RngState) :=
  if limit = 0 then none
  else if limit = 1 then some (0, r)
  else some (r.ints r.iIdx % limit, { r with iIdx := r.iIdx + 1 })

/-- Modelled from the spec: AstGenerator::ChooseBitPattern is absent
from the excerpt; it produces some bit pattern of the requested width,
modelled as the next integer draw reduced to that width. -/
def chooseBitPattern (bitCount : Nat) (r : RngState) : Nat × RngState :=
  (r.ints r.iIdx % 2 ^ bitCount, { r with iIdx := r.iIdx + 1 })

/-- GenerateBitValue from sample_generator.cc: choose a bit pattern of
the given count and tag it signed or unsigned. -/
def generateBitValue (bitCount : Nat) (r : RngState) (isSigned : Bool) :
    Value × RngState :=
  let p := chooseBitPattern bitCount r
  (.bits isSigned bitCount p.1, p.2)

/-- GenerateUnbiasedArgument from sample_generator.cc: an arbitrary
value of the bits type's count and signedness. -/
def generateUnbiasedArgument (signed : Bool) (size : Nat) (r : RngState) :
    Value × RngState :=
  generateBitValue size r signed

/-- One random bit flip per count, as in the mutation loop of
GenerateArgument in sample_generator.cc: pick a random bit position
below the target width and toggle it. -/
def mutateBits : Nat → Nat → Nat → RngState → Nat × RngState
  | 0, _, v, r => (v, r)
  | count + 1, target, v, r =>
    let d := r.randRange target
    mutateBits count target (v ^^^ 2 ^ d.1) d.2

/-- Tail of GenerateArgument's mutation path in sample_generator.cc:
XLS_RET_CHECK_EQ(bitmap.bit_count(), target_bit_count), then a mutation
count biased towards zero (aborting when the target width is zero),
then that many random bit flips, tagged with the bits type's
signedness. -/
def finishMutation (signed : Bool) (target w v : Nat) (r : RngState) :
    Option (Value × RngState) :=
  if w = target then
    match r.randRangeBiasedTowardsZero target with
    | none => none
    | some (mcount, r2) =>
      let m := mutateBits mcount target v r2
      some (.bits signed target m.1, m.2)
  else none

mutual

/-- GenerateArgument from sample_generator.cc: a channel type generates
its payload type; a tuple type generates each member; an array type
generates size elements; a bits type generates an unbiased value, or —
when the prior pool is non-empty, the coin flip is not below one half
and the chosen prior argument is a bits value — mutates that prior
value, first concatenated with fresh high bits or sliced down to the
target bit count. -/
def generateArgument : ConcreteType → RngState → List Value →
    Option (Value × RngState)
  | .channel p, rng, prior => generateArgument p rng prior
  | .tuple ts, rng, prior =>
    match generateTupleMembers ts rng prior with
    | none => none
    | some (ms, rng2) => some (.tuple ms, rng2)
  | .array t n, rng, prior =>
    match generateArrayElements t n rng prior with
    | none => none
    | some (es, rng2) => some (.array es, rng2)
  | .bits s n, rng, prior =>
    if prior.isEmpty then some (generateUnbiasedArgument s n rng)
    else
      let d := rng.randomDouble
      if d.1 < 1 / 2 then some (generateUnbiasedArgument s n d.2)
      else
        let ix := d.2.randRange prior.length
        match prior.getD ix.1 .unit with
        | .bits _ pw pv =>
          if n > pw then
            let addendum := chooseBitPattern (n - pw) ix.2
            finishMutation s n (pw + (n - pw)) (pv * 2 ^ (n - pw) + addendum.1)
              addendum.2
          else
            finishMutation s n n (pv % 2 ^ n) ix.2
        | _ => some (generateUnbiasedArgument s n ix.2)
termination_by t _ _ => (sizeOf t, 0)

/-- The member loop of GenerateArgument's tuple case. -/
def generateTupleMembers : List ConcreteType → RngState → List Value →
    Option (List Value × RngState)
  | [], rng, _ => some ([], rng)
  | t :: ts, rng, prior =>
    match generateArgument t rng prior with
    | none => none
    | some (v, rng2) =>
      match generateTupleMembers ts rng2 prior with
      | none => none
      | some (vs, rng3) => some (v :: vs, rng3)
termination_by ts _ _ => (sizeOf ts, 0)

/-- The element loop of GenerateArgument's array case. -/
def generateArrayElements : ConcreteType → Nat → RngState → List Value →
    Option (List Value × RngState)
  | _, 0, rng, _ => some ([], rng)
  | t, n + 1, rng, prior =>
    match generateArgument t rng prior with
    | none => none
    | some (v, rng2) =>
      match generateArrayElements t n rng2 prior with
      | none => none
      | some (vs, rng3) => some (v :: vs, rng3)
termination_by t n _ _ => (sizeOf t, n + 1)

end

/-- Loop body of GenerateArguments from sample_generator.cc: each
argument is generated against the list of already generated arguments,
which is also the accumulated result. -/
def generateArgumentsGo : List ConcreteType → List Value → RngState →
    Option (List Value × RngState)
  | [], acc, rng => some (acc, rng)
  | t :: ts, acc, rng =>
    match generateArgument t rng acc with
    | none => none
    | some (v, rng2) => generateArgumentsGo ts (acc ++ [v]) rng2

/-- GenerateArguments from sample_generator.cc. -/
def generateArguments (argTypes : List ConcreteType) (rng : RngState) :
    Option (List Value × RngState) :=
  generateArgumentsGo argTypes [] rng

mutual

/-- A value matches the shape of a concrete type: a channel type is
matched through its payload, a tuple type by a tuple matching
member-wise, an array type of size n by an array of n matching
elements, and a bits type by a Bits value of equal bit count and
signedness. -/
def matchesShape : ConcreteType → Value → Bool
  | .bits s n, v =>
    match v with
    | .bits s2 w _ => s == s2 && n == w
    | _ => false
  | .tuple ts, v =>
    match v with
    | .tuple vs => matchesShapeList ts vs
    | _ => false
  | .array t n, v =>
    match v with
    | .array es => es.length == n && matchesShapeAll t es
    | _ => false
  | .channel p, v => matchesShape p v
termination_by t _ => (sizeOf t, 0)

/-- Member-wise shape match of a value list against a type list. -/
def matchesShapeList : List ConcreteType → List Value → Bool
  | [], [] => true
  | t :: ts, v :: vs => matchesShape t v && matchesShapeList ts vs
  | _, _ => false
termination_by ts _ => (sizeOf ts, 0)

/-- Shape match of every element of a value list against one type. -/
def matchesShapeAll : ConcreteType → List Value → Bool
  | _, [] => true
  | t, v :: vs => matchesShape t v && matchesShapeAll t vs
termination_by t vs => (sizeOf t, vs.length + 1)

end

/-- Every successful mutation tail yields a Bits value of the target
width and requested signedness. -/
theorem finishMutation_shape (s : Bool) (target w v : Nat) (r : RngState)
    (val : Value) (r2 : RngState)
    (h : finishMutation s target w v r = some (val, r2)) :
    ∃ p, val = Value.bits s target p := by
  rw [finishMutation] at h
  split at h
  · split at h
    · exact absurd h (by simp)
    · simp only [Option.some.injEq, Prod.mk.injEq] at h
      exact ⟨_, h.1.symm⟩
  · exact absurd h (by simp)

/-- A Bits value of matching count and signedness matches a bits type. -/
theorem matchesShape_bits (s : Bool) (n p : Nat) :
    matchesShape (ConcreteType.bits s n) (Value.bits s n p) = true := by
  rw [matchesShape]
  simp

mutual

/-- Every value produced by GenerateArgument matches the shape of the
requested type. -/
theorem generateArgument_shape : (t : ConcreteType) → (rng : RngState) →
    (prior : List Value) → (v : Value) → (rng2 : RngState) →
    generateArgument t rng prior = some (v, rng2) → matchesShape t v = true
  | .channel p, rng, prior, v, rng2, h => by
    rw [generateArgument] at h
    rw [matchesShape]
    exact generateArgument_shape p rng prior v rng2 h
  | .tuple ts, rng, prior, v, rng2, h => by
    rw [generateArgument] at h
    cases hm : generateTupleMembers ts rng prior with
    | none => rw [hm] at h; simp at h
    | some pr =>
      obtain ⟨ms, r3⟩ := pr
      rw [hm] at h
      simp only [Option.some.injEq, Prod.mk.injEq] at h
      obtain ⟨h1, _⟩ := h
      subst h1
      rw [matchesShape]
      exact generateTupleMembers_shape ts rng prior ms r3 hm
  | .array t n, rng, prior, v, rng2, h => by
    rw [generateArgument] at h
    cases hm : generateArrayElements t n rng prior with
    | none => rw [hm] at h; simp at h
    | some pr =>
      obtain ⟨es, r3⟩ := pr
      rw [hm] at h
      simp only [Option.some.injEq, Prod.mk.injEq] at h
      obtain ⟨h1, _⟩ := h
      subst h1
      obtain ⟨hlen, hall⟩ := generateArrayElements_shape t n rng prior es r3 hm
      rw [matchesShape]
      simp [hlen, hall]
  | .bits s n, rng, prior, v, rng2, h => by
    rw [generateArgument] at h
    split at h
    · simp only [generateUnbiasedArgument, generateBitValue, Option.some.injEq,
        Prod.mk.injEq] at h
      obtain ⟨h1, _⟩ := h
      subst h1
      exact matchesShape_bits s n _
    · conv at h => lhs; zeta
      split at h
      · simp only [generateUnbiasedArgument, generateBitValue, Option.some.injEq,
          Prod.mk.injEq] at h
        obtain ⟨h1, _⟩ := h
        subst h1
        exact matchesShape_bits s n _
      · conv at h => lhs; zeta
        split at h
        · split at h
          · conv at h => lhs; zeta
            obtain ⟨p, hp⟩ := finishMutation_shape _ _ _ _ _ _ _ h
            subst hp
            exact matchesShape_bits s n p
          · obtain ⟨p, hp⟩ := finishMutation_shape _ _ _ _ _ _ _ h
            subst hp
            exact matchesShape_bits s n p
        · simp only [generateUnbiasedArgument, generateBitValue, Option.some.injEq,
            Prod.mk.injEq] at h
          obtain ⟨h1, _⟩ := h
          subst h1
          exact matchesShape_bits s n _
termination_by t _ _ _ _ _ => (sizeOf t, 0)

/-- Every member list produced for a tuple type matches member-wise. -/
theorem generateTupleMembers_shape : (ts : List ConcreteType) → (rng : RngState) →
    (prior : List Value) → (vs : List Value) → (rng2 : RngState) →
    generateTupleMembers ts rng prior = some (vs, rng2) →
    matchesShapeList ts vs = true
  | [], rng, prior, vs, rng2, h => by
    rw [generateTupleMembers] at h
    simp only [Option.some.injEq, Prod.mk.injEq] at h
    obtain ⟨h1, _⟩ := h
    subst h1
    rw [matchesShapeList]
  | t :: ts, rng, prior, vs, rng2, h => by
    rw [generateTupleMembers] at h
    cases ha : generateArgument t rng prior with
    | none => rw [ha] at h; simp at h
    | some pr =>
      obtain ⟨v, r3⟩ := pr
      rw [ha] at h
      simp only [Option.some.injEq] at h
      cases hm : generateTupleMembers ts r3 prior with
      | none => rw [hm] at h; simp at h
      | some pr2 =>
        obtain ⟨ws, r4⟩ := pr2
        rw [hm] at h
        simp only [Option.some.injEq, Prod.mk.injEq] at h
        obtain ⟨h1, _⟩ := h
        subst h1
        rw [matchesShapeList]
        simp [generateArgument_shape t rng prior v r3 ha,
          generateTupleMembers_shape ts r3 prior ws r4 hm]
termination_by ts _ _ _ _ _ => (sizeOf ts, 0)

/-- Every element list produced for an array type has the requested
length and element-wise shape. -/
theorem generateArrayElements_shape : (t : ConcreteType) → (n : Nat) →
    (rng : RngState) → (prior : List Value) → (es : List Value) →
    (rng2 : RngState) →
    generateArrayElements t n rng prior = some (es, rng2) →
    es.length = n ∧ matchesShapeAll t es = true
  | t, 0, rng, prior, es, rng2, h => by
    rw [generateArrayElements] at h
    simp only [Option.some.injEq, Prod.mk.injEq] at h
    obtain ⟨h1, _⟩ := h
    subst h1
    exact ⟨rfl, by rw [matchesShapeAll]⟩
  | t, n + 1, rng, prior, es, rng2, h => by
    rw [generateArrayElements] at h
    cases ha : generateArgument t rng prior with
    | none => rw [ha] at h; simp at h
    | some pr =>
      obtain ⟨v, r3⟩ := pr
      rw [ha] at h
      simp only [Option.some.injEq] at h
      cases hm : generateArrayElements t n r3 prior with
      | none => rw [hm] at h; simp at h
      | some pr2 =>
        obtain ⟨ws, r4⟩ := pr2
        rw [hm] at h
        simp only [Option.some.injEq, Prod.mk.injEq] at h
        obtain ⟨h1, _⟩ := h
        subst h1
        obtain ⟨hlen, hall⟩ := generateArrayElements_shape t n r3 prior ws r4 hm
        refine ⟨by simp [hlen], ?_⟩
        rw [matchesShapeAll]
        simp [generateArgument_shape t rng prior v r3 ha, hall]
termination_by t n _ _ _ _ _ => (sizeOf t, n + 1)

end

/-- The argument loop extends its accumulator with one shape-matching
value per remaining type. -/
theorem generateArgumentsGo_shape : ∀ (ts : List ConcreteType) (acc : List Value)
    (rng : RngState) (out : List Value) (rng2 : RngState),
    generateArgumentsGo ts acc rng = some (out, rng2) →
    ∃ gen, out = acc ++ gen ∧
      List.Forall₂ (fun t v => matchesShape t v = true) ts gen := by
  intro ts
  induction ts with
  | nil =>
    intro acc rng out rng2 h
    rw [generateArgumentsGo] at h
    simp only [Option.some.injEq, Prod.mk.injEq] at h
    obtain ⟨h1, _⟩ := h
    subst h1
    exact ⟨[], by simp, List.Forall₂.nil⟩
  | cons t ts ih =>
    intro acc rng out rng2 h
    rw [generateArgumentsGo] at h
    cases ha : generateArgument t rng acc with
    | none => rw [ha] at h; simp at h
    | some pr =>
      obtain ⟨v, r3⟩ := pr
      rw [ha] at h
      simp only [] at h
      obtain ⟨gen, hout, hf⟩ := ih (acc ++ [v]) r3 out rng2 h
      refine ⟨v :: gen, by simp [hout], ?_⟩
      exact List.Forall₂.cons (generateArgument_shape t rng acc v r3 ha) hf

/-- C10 (amended): whenever GenerateArguments returns an argument list,
the list has one value per argument type and the i-th value matches the
shape of the i-th type: a tuple type yields a tuple with one matching
member per member type, an array type of size n yields an array of n
matching elements, and a bits type yields a Bits value of that type's
bit count and signedness. -/
theorem generateArguments_shapes (argTypes : List ConcreteType) (rng : RngState)
    (out : List Value) (rng2 : RngState)
    (h : generateArguments argTypes rng = some (out, rng2)) :
    out.length = argTypes.length ∧
    List.Forall₂ (fun t v => matchesShape t v = true) argTypes out := by
  obtain ⟨gen, hout, hf⟩ := generateArgumentsGo_shape argTypes [] rng out rng2 h
  simp only [List.nil_append] at hout
  subst hout
  exact ⟨hf.length_eq.symm, hf⟩

/-- A generator state with constantly zero streams. -/
def witnessRng : RngState := ⟨fun _ => 0, fun _ => 0, 0, 0⟩

/-- The state witnessRng after one integer draw. -/
def witnessRng2 : RngState := ⟨fun _ => 0, fun _ => 0, 0, 1⟩

/-- Witness for C10: on the single argument type u1 and the state
witnessRng, GenerateArguments returns the one-element list [u1:0],
which matches the type list in length and shape. -/
theorem generateArguments_shapes_witness :
    ([Value.bits false 1 0] : List Value).length =
      ([ConcreteType.bits false 1] : List ConcreteType).length ∧
    List.Forall₂ (fun t v => matchesShape t v = true)
      [ConcreteType.bits false 1] [Value.bits false 1 0] :=
  generateArguments_shapes [ConcreteType.bits false 1] witnessRng
    [Value.bits false 1 0] witnessRng2 (by
      simp [generateArguments, generateArgumentsGo, generateArgument,
        generateUnbiasedArgument, generateBitValue, chooseBitPattern,
        witnessRng, witnessRng2])

/-- Generator state for the zero-width counterexample: the unit-interval
stream is constantly one half (so the coin flip is not below one half)
and the integer stream is constantly zero. -/
def ceRng : RngState := ⟨fun _ => 1 / 2, fun _ => 0, 0, 0⟩

/-- C10, as stated, fails on the code at a concrete input: with argument
types [u1, u0] and the state ceRng, GenerateArguments produces no
argument list at all — the second, zero-width type takes the mutation
path against the first argument and RandRangeBiasedTowardsZero(0) trips
its XLS_CHECK_GT(limit, 0). -/
theorem generateArguments_zero_width_aborts :
    generateArguments [ConcreteType.bits false 1, ConcreteType.bits false 0]
      ceRng = none ∧
    ¬ ∃ out rng2,
      generateArguments [ConcreteType.bits false 1, ConcreteType.bits false 0]
        ceRng = some (out, rng2) := by
  have hlt : ¬ ((1 : ℚ) / 2 < 1 / 2) := lt_irrefl _
  have h : generateArguments [ConcreteType.bits false 1, ConcreteType.bits false 0]
      ceRng = none := by
    simp [generateArguments, generateArgumentsGo, generateArgument,
      generateUnbiasedArgument, generateBitValue, chooseBitPattern,
      RngState.randomDouble, RngState.randRange, RngState.randRangeBiasedTowardsZero,
      finishMutation, ceRng, hlt]
  exact ⟨h, by simp [h]⟩

end Fuzzer
